import Mathlib

/-!
Verification of the tcanvas drawing library (src/tcanvas/geometry.py,
src/tcanvas/tcanvas.py) against its natural-language specification.

Continuous drawing-space coordinates (Python floats) are modelled as
rationals; grid cell indices are pairs of integers.  Python strings are
modelled as lists of characters, and a Python function that can raise an
exception is modelled as returning an `Option` (with `none` standing for
the raised exception).

The shape methods of `Geometry2D` interact with the canvas only through
`self.transform_position` and `self.set`; they are embedded as trace
functions parametrised by the canvas's default transform and the call's
optional transform argument, recording each continuous position passed
to `set` together with the transform that this `set` call resolves
(`set` applies that transform to the position to obtain the target
cell, tcanvas.py line 366).
-/

namespace Tcanvas

/-- Python `int(q)` on a real value: truncation toward zero. -/
def pytrunc (q : ℚ) : ℤ :=
  if q < 0 then -⌊-q⌋ else ⌊q⌋

/-- Python `round(q)` (to an integer): round half to even (banker's
rounding), as performed by CPython's built-in `round`. -/
def pyround (q : ℚ) : ℤ :=
  let f : ℤ := ⌊q⌋
  if q - f < 1 / 2 then f
  else if 1 / 2 < q - f then f + 1
  else if f % 2 = 0 then f else f + 1

/-- A coordinate transformation: continuous drawing-space position to an
integer grid cell `(col, row)` (tcanvas.py, `add_transformation` contract). -/
def Transform : Type := ℚ × ℚ → ℤ × ℤ

/-- The built-in "unit" transform (tcanvas.py line 184):
`lambda pos: (int(round(pos[0])), int(round(pos[1])))`. -/
def unitTransform : Transform := fun pos => (pyround pos.1, pyround pos.2)

/-- A caller-registered transform used as a concrete test input (any
function of the right type may be registered via `add_transformation`):
it squares the rounded first coordinate. -/
def sqTransform : Transform := fun pos => (pyround pos.1 * pyround pos.1, pyround pos.2)

/-- A continuous position made from an integer cell index, as Python
implicitly promotes the ints when they are used as coordinates again. -/
def intPos (p : ℤ × ℤ) : ℚ × ℚ := ((p.1 : ℚ), (p.2 : ℚ))

/-! ### Geometry2D.line (geometry.py lines 4-28) -/

/-- The step count `steps = max(abs(x1 - x0), abs(y1 - y0))` computed
from the transformed (grid-space) endpoints (geometry.py lines 9-14). -/
def lineSteps (T : Transform) (pos0 pos1 : ℚ × ℚ) : ℕ :=
  max ((T pos1).1 - (T pos0).1).natAbs ((T pos1).2 - (T pos0).2).natAbs

/-- The accumulation loop of `line` (geometry.py lines 25-28): starting
from `(x, y)`, repeatedly do `x += dpx; y += dpy` and record the point. -/
def lineAccum : ℕ → ℚ → ℚ → ℚ → ℚ → List (ℚ × ℚ)
  | 0, _, _, _, _ => []
  | n + 1, x, y, dpx, dpy =>
      (x + dpx, y + dpy) :: lineAccum n (x + dpx) (y + dpy) dpx dpy

/-- The ordered list of continuous positions `Geometry2D.line` passes to
`set` (geometry.py lines 16-28). -/
def linePositions (T : Transform) (pos0 pos1 : ℚ × ℚ) : List (ℚ × ℚ) :=
  let steps := lineSteps T pos0 pos1
  if steps = 0 then [pos0]
  else
    let dpx := (pos1.1 - pos0.1) / steps
    let dpy := (pos1.2 - pos0.2) / steps
    (pos0.1, pos0.2) :: lineAccum steps pos0.1 pos0.2 dpx dpy

/-- The grid cells written by `line`: `set` transforms each interpolated
point independently (tcanvas.py line 366). -/
def lineCells (T : Transform) (pos0 pos1 : ℚ × ℚ) : List (ℤ × ℤ) :=
  (linePositions T pos0 pos1).map T

/-- The `set`-call trace of one `line` call: each recorded entry is the
continuous position together with the transform `set` resolves for it
(`line` hands its own `transformation` argument through to `set`, so
one resolved transform governs both the step count and every cell). -/
def lineTrace (T : Transform) (pos0 pos1 : ℚ × ℚ) : List ((ℚ × ℚ) × Transform) :=
  (linePositions T pos0 pos1).map (fun p => (p, T))

/-- The cells actually written by a trace of `set` calls. -/
def cellsOf (tr : List ((ℚ × ℚ) × Transform)) : List (ℤ × ℤ) :=
  tr.map (fun e => e.2 e.1)

/-! ### Geometry2D.triangle (geometry.py lines 30-58) -/

/-- The `set`-call trace of `Geometry2D.triangle`.  `D` is the canvas's
default transform, `tr?` the call's `transformation` argument.  The code
first transforms the three vertices with the resolved transform `T`
(lines 33-35), then draws the three edges between those *integer*
coordinates with `transformation=None` — which `line` and `set` resolve
to the canvas default `D` (lines 37-39).  The fill fan (lines 41-58)
interpolates the continuous edge `pos0 → pos1` in `steps` increments
(step count from the transformed deltas) and draws a line from each of
the `steps - 1` interior points to `pos2` under `tr?`. -/
def triangleTrace (D : Transform) (tr? : Option Transform)
    (pos0 pos1 pos2 : ℚ × ℚ) (fill : Bool) : List ((ℚ × ℚ) × Transform) :=
  let T := tr?.getD D
  let q0 := intPos (T pos0)
  let q1 := intPos (T pos1)
  let q2 := intPos (T pos2)
  (lineTrace D q0 q1 ++ lineTrace D q1 q2 ++ lineTrace D q0 q2) ++
    (if fill ∧ 2 ≤ lineSteps T pos0 pos1 then
      let steps := lineSteps T pos0 pos1
      let dpx := (pos1.1 - pos0.1) / steps
      let dpy := (pos1.2 - pos0.2) / steps
      ((lineAccum (steps - 1) pos0.1 pos0.2 dpx dpy).map
        (fun p => lineTrace T p pos2)).flatten
    else [])

/-- Modelled from the spec for the comparison in claim C4: the trace of
"the three boundary edges drawn as Lines under that transform", i.e.
`Line(pos0, pos1)`, `Line(pos1, pos2)`, `Line(pos0, pos2)` each on the
original continuous vertices under the call's transform. -/
def triangleSpecEdges (T : Transform) (pos0 pos1 pos2 : ℚ × ℚ) :
    List ((ℚ × ℚ) × Transform) :=
  lineTrace T pos0 pos1 ++ lineTrace T pos1 pos2 ++ lineTrace T pos0 pos2

/-! ### Geometry2D.polygon (geometry.py lines 60-87) -/

/-- The loop `pos0 = vertices[-1]; for pos1 in vertices: ... pos0 = pos1`
(geometry.py lines 76-81 and 84-87): consecutive vertex pairs starting
with the wrap-around pair. -/
def loopPairsAux {α : Type _} (prev : α) : List α → List (α × α)
  | [] => []
  | v :: rest => (prev, v) :: loopPairsAux v rest

/-- The consecutive-edge pairs of a vertex list treated as a closed loop
(empty for an empty list; the Python code raises on an empty list). -/
def loopPairs {α : Type _} (vs : List α) : List (α × α) :=
  match vs.getLast? with
  | none => []
  | some l => loopPairsAux l vs

/-- The arithmetic-mean centroid accumulation of `polygon`
(geometry.py lines 69-75). -/
def centroid (vs : List (ℚ × ℚ)) : ℚ × ℚ :=
  (vs.foldl (fun a p => a + p.1) 0 / vs.length,
   vs.foldl (fun a p => a + p.2) 0 / vs.length)

/-- The `set`-call trace of `Geometry2D.polygon`: filled, one filled
triangle `(centroid, previous, current)` per consecutive edge including
the wrap-around edge (the `fill` argument of `triangle` defaults to
`True`); unfilled, one line per consecutive edge. -/
def polygonTrace (D : Transform) (tr? : Option Transform)
    (vs : List (ℚ × ℚ)) (fill : Bool) : List ((ℚ × ℚ) × Transform) :=
  if fill then
    ((loopPairs vs).map (fun e => triangleTrace D tr? (centroid vs) e.1 e.2 true)).flatten
  else
    ((loopPairs vs).map (fun e => lineTrace (tr?.getD D) e.1 e.2)).flatten

/-! ### Texel and its serializer (tcanvas.py lines 38-149)

A Python colour value reaching `Texel.ansi_color_code` is either a
string or a tuple of three numbers, each an `int` or a `float`
(tcanvas.py module docstring). -/

/-- A Python number: an `int` or a `float` (floats as rationals). -/
inductive PyNum : Type
  | int : ℤ → PyNum
  | float : ℚ → PyNum
deriving DecidableEq

/-- A Python colour value: a string, or a tuple of three numbers. -/
inductive Color : Type
  | str : List Char → Color
  | triple : PyNum → PyNum → PyNum → Color
deriving DecidableEq

def PyNum.toRat : PyNum → ℚ
  | .int n => (n : ℚ)
  | .float q => q

/-- Python `"%d" % x`: an int prints as is, a float is truncated. -/
def PyNum.formatD : PyNum → ℤ
  | .int n => n
  | .float q => pytrunc q

def PyNum.isFloat : PyNum → Bool
  | .int _ => false
  | .float _ => true

/-- The `subs` table of `Texel.ansi_color_code` (tcanvas.py lines 84-102),
mapping each symbolic colour string to its numeric base code. -/
def subs : List (Char × ℤ) :=
  [('k', 30), ('r', 31), ('g', 32), ('y', 33), ('b', 34), ('m', 35),
   ('c', 36), ('w', 37), ('0', 39), ('K', 90), ('R', 91), ('G', 92),
   ('Y', 93), ('B', 94), ('M', 95), ('C', 96), ('W', 97)]

/-- Decimal digits of an integer, as `"%d"` prints it. -/
def intChars (n : ℤ) : List Char := (toString n).data

/-- Whether a colour string is a key of the `subs` table. -/
def knownSymbol (s : List Char) : Bool :=
  match s with
  | [c] => (subs.lookup c).isSome
  | _ => false

/-- The static method Texel.ansi_color_code (tcanvas.py lines 79-116).
A string found in
`subs` yields its numeric code (`+10` for backgrounds); a triple whose
first component is a float has every component multiplied by 255 and
truncated to int, a triple with int first component is `%d`-formatted
directly; any other string raises (`none`: an `IndexError` on the empty
string, a `TypeError` from the `%` formatting otherwise). -/
def ansi_color_code (color : Color) (bg : Bool) : Option (List Char) :=
  match color with
  | .str s =>
      match s with
      | [c] =>
          match subs.lookup c with
          | some n => some (intChars (if bg then n + 10 else n) ++ [';'])
          | none => none
      | _ => none
  | .triple a b c =>
      let chans : List ℤ :=
        if a.isFloat then [a, b, c].map (fun x => pytrunc (x.toRat * 255))
        else [a, b, c].map PyNum.formatD
      some ((if bg then intChars 48 else intChars 38) ++ [';'] ++ intChars 2 ++ [';']
        ++ (chans.map (fun n => intChars n ++ [';'])).flatten)

/-- One character of the screen with its display attributes
(tcanvas.py lines 38-77); fields and defaults as in `Texel.__init__`. -/
structure Texel : Type where
  character : List Char := []
  fg_color : Color := .str ['0']
  bg_color : Color := .str ['0']
  bold : Bool := false
  faint : Bool := false
  italic : Bool := false
  underline : Bool := false
  cross : Bool := false
  blink : Bool := false
  inverse : Bool := false
  overline : Bool := false
deriving DecidableEq

/-- The method Texel.render (tcanvas.py lines 118-149): escape introducer, colour
codes, one `"N;"` chunk per active flag in the order bold, faint,
italic, underline, blink, inverse, cross, overline; drop the final
`';'`, append `'m'`, the character (a space if empty), and the reset
sequence. -/
def Texel.render (t : Texel) : Option (List Char) :=
  match ansi_color_code t.fg_color false, ansi_color_code t.bg_color true with
  | some fg, some bg =>
      let ansi := ['\x1b', '['] ++ fg ++ bg
        ++ (if t.bold then ['1', ';'] else [])
        ++ (if t.faint then ['2', ';'] else [])
        ++ (if t.italic then ['3', ';'] else [])
        ++ (if t.underline then ['4', ';'] else [])
        ++ (if t.blink then ['5', ';'] else [])
        ++ (if t.inverse then ['7', ';'] else [])
        ++ (if t.cross then ['9', ';'] else [])
        ++ (if t.overline then ['5', '3', ';'] else [])
      some (ansi.dropLast ++ ['m']
        ++ (if t.character.length > 0 then t.character else [' '])
        ++ ['\x1b', '[', '0', 'm'])
  | _, _ => none

/-- Lists of characters joined by a separator, no trailing separator. -/
def sepJoin (sep : Char) : List (List Char) → List Char
  | [] => []
  | [b] => b
  | b :: c :: rest => b ++ [sep] ++ sepJoin sep (c :: rest)

/-- The codes of the active style flags of a Texel, in the fixed order
in which `Texel.render` emits them. -/
def flagCodes (t : Texel) : List (List Char) :=
  (if t.bold then [['1']] else []) ++ (if t.faint then [['2']] else [])
    ++ (if t.italic then [['3']] else []) ++ (if t.underline then [['4']] else [])
    ++ (if t.blink then [['5']] else []) ++ (if t.inverse then [['7']] else [])
    ++ (if t.cross then [['9']] else []) ++ (if t.overline then [['5', '3']] else [])

/-! ### The buffer and DotCanvas.set (tcanvas.py lines 348-370)

`DotCanvas.set` resolves its transform, bounds-checks the resulting
`(col, row)` against the grid size, and on success runs
`setattr(self._buffer[row][col], attr, val)` for each keyword argument.
The keyword-argument set is modelled as a patch record with one
optional value per Texel field. -/

/-- The keyword arguments of one `set` call: `some v` for each named
attribute, `none` for attributes not named. -/
structure TexelPatch : Type where
  character : Option (List Char) := none
  fg_color : Option Color := none
  bg_color : Option Color := none
  bold : Option Bool := none
  faint : Option Bool := none
  italic : Option Bool := none
  underline : Option Bool := none
  cross : Option Bool := none
  blink : Option Bool := none
  inverse : Option Bool := none
  overline : Option Bool := none
deriving DecidableEq

/-- Python `for attr, val in kwargs.items(): setattr(texel, attr, val)`:
each named field is overwritten, every other field kept. -/
def applyPatch (t : Texel) (p : TexelPatch) : Texel where
  character := p.character.getD t.character
  fg_color := p.fg_color.getD t.fg_color
  bg_color := p.bg_color.getD t.bg_color
  bold := p.bold.getD t.bold
  faint := p.faint.getD t.faint
  italic := p.italic.getD t.italic
  underline := p.underline.getD t.underline
  cross := p.cross.getD t.cross
  blink := p.blink.getD t.blink
  inverse := p.inverse.getD t.inverse
  overline := p.overline.getD t.overline

/-- Merge of two optional values, the second taking precedence. -/
def oMerge {α : Type _} (a b : Option α) : Option α :=
  match b with
  | some v => some v
  | none => a

/-- The union of two patches, the second taking precedence on fields
named by both. -/
def patchMerge (p q : TexelPatch) : TexelPatch where
  character := oMerge p.character q.character
  fg_color := oMerge p.fg_color q.fg_color
  bg_color := oMerge p.bg_color q.bg_color
  bold := oMerge p.bold q.bold
  faint := oMerge p.faint q.faint
  italic := oMerge p.italic q.italic
  underline := oMerge p.underline q.underline
  cross := oMerge p.cross q.cross
  blink := oMerge p.blink q.blink
  inverse := oMerge p.inverse q.inverse
  overline := oMerge p.overline q.overline

/-- In-place update of one list entry (no-op when out of range), as
Python's `lst[i]` mutation. -/
def updateAt {α : Type _} : List α → ℕ → (α → α) → List α
  | [], _, _ => []
  | a :: rest, 0, f => f a :: rest
  | a :: rest, n + 1, f => a :: updateAt rest n f

/-- The cell stored at `_buffer[r][c]`, if present. -/
def getCell (buffer : List (List Texel)) (r c : ℕ) : Option Texel :=
  (buffer.get? r).bind fun row => row.get? c

/-- The method DotCanvas.set (tcanvas.py lines 348-370): resolve the transform
(`tr?` or the canvas default `D`), map `pos` to `(col, row)`, and if
`0 <= col < ncol and 0 <= row < nrow` overwrite the named attributes of
`_buffer[row][col]`; otherwise change nothing (and raise nothing). -/
def canvasSet (ncol nrow : ℕ) (D : Transform) (tr? : Option Transform)
    (buffer : List (List Texel)) (pos : ℚ × ℚ) (patch : TexelPatch) :
    List (List Texel) :=
  let cr := (tr?.getD D) pos
  if 0 ≤ cr.1 ∧ cr.1 < (ncol : ℤ) ∧ 0 ≤ cr.2 ∧ cr.2 < (nrow : ℤ) then
    updateAt buffer cr.2.toNat (fun row => updateAt row cr.1.toNat (fun t => applyPatch t patch))
  else buffer

/-- The body of CanvasBase.render over a given grid (tcanvas.py lines
255-263): for
every row, render every cell left to right, append a newline after each
row, and remove the final newline (`string[:-1]`).  The code reads the
grid from the attribute `self.buffer`, which does not exist — the grid
is stored in `self._buffer`; this definition follows the body with the
grid supplied as its argument. -/
def renderGrid (buffer : List (List Texel)) : Option (List Char) :=
  (buffer.mapM (fun (row : List Texel) => (row.mapM Texel.render).map List.flatten)).map
    (fun rows => ((rows.map (fun r => r ++ ['\n'])).flatten).dropLast)

/-! ### Lemmas and claim theorems -/

lemma lineAccum_eq_map (n : ℕ) :
    ∀ x y dpx dpy, lineAccum n x y dpx dpy =
      (List.range n).map
        (fun (i : ℕ) => (x + ((i : ℚ) + 1) * dpx, y + ((i : ℚ) + 1) * dpy)) := by
  induction n with
  | zero => intro x y dpx dpy; rfl
  | succ n ih =>
    intro x y dpx dpy
    rw [List.range_succ_eq_map]
    simp only [lineAccum, ih, List.map_cons, List.map_map]
    refine congrArg₂ List.cons ?_ ?_
    · rw [Prod.mk.injEq]
      norm_num
    · apply List.map_congr_left
      intro i _
      simp only [Function.comp_apply]
      rw [Prod.mk.injEq]
      push_cast
      constructor <;> ring

lemma linePositions_eq_map (T : Transform) (pos0 pos1 : ℚ × ℚ) :
    linePositions T pos0 pos1 =
      (List.range (lineSteps T pos0 pos1 + 1)).map
        (fun (i : ℕ) =>
          (pos0.1 + (i : ℚ) * ((pos1.1 - pos0.1) / (lineSteps T pos0 pos1)),
           pos0.2 + (i : ℚ) * ((pos1.2 - pos0.2) / (lineSteps T pos0 pos1)))) := by
  unfold linePositions
  by_cases h : lineSteps T pos0 pos1 = 0
  · simp [h]
  · rw [if_neg h]
    simp only [lineAccum_eq_map, List.range_succ_eq_map, List.map_cons, List.map_map]
    refine congrArg₂ List.cons ?_ ?_
    · rw [Prod.mk.injEq]
      norm_num
    · apply List.map_congr_left
      intro i _
      simp only [Function.comp_apply]
      rw [Prod.mk.injEq]
      push_cast
      constructor <;> ring

lemma map_range_succ_getLast {α : Type _} (f : ℕ → α) (n : ℕ) :
    ((List.range (n + 1)).map f).getLast? = some (f n) := by
  rw [List.range_succ, List.map_append]
  exact List.getLast?_concat _

/-- Claim C1: for every pair of continuous-space positions and every
transform, `line` computes `steps` as the max of the absolute
transformed (grid-space) column and row deltas; it performs exactly
`steps + 1` set calls (one, at `pos0`, when `steps = 0`), at positions
linearly interpolated in continuous space from `pos0` to `pos1`
inclusive of both endpoints, each point transformed independently; in
particular `Line((0,0),(5,0))` under the "unit" transform writes
exactly the six cells `(0,0)` .. `(5,0)`, and `Line((2,2),(2,2))`
performs exactly one set. -/
theorem line_steps_and_interpolation :
    (∀ (T : Transform) (pos0 pos1 : ℚ × ℚ),
      linePositions T pos0 pos1 =
        (List.range (lineSteps T pos0 pos1 + 1)).map
          (fun (i : ℕ) =>
            (pos0.1 + (i : ℚ) * ((pos1.1 - pos0.1) / (lineSteps T pos0 pos1)),
             pos0.2 + (i : ℚ) * ((pos1.2 - pos0.2) / (lineSteps T pos0 pos1))))
      ∧ (linePositions T pos0 pos1).length = lineSteps T pos0 pos1 + 1
      ∧ (linePositions T pos0 pos1).head? = some pos0
      ∧ (linePositions T pos0 pos1).getLast? =
          some (if lineSteps T pos0 pos1 = 0 then pos0 else pos1))
    ∧ lineCells unitTransform (0, 0) (5, 0) = [(0, 0), (1, 0), (2, 0), (3, 0), (4, 0), (5, 0)]
    ∧ linePositions unitTransform (2, 2) (2, 2) = [(2, 2)] := by
  refine ⟨fun T pos0 pos1 => ⟨linePositions_eq_map T pos0 pos1, ?_, ?_, ?_⟩, ?_, ?_⟩
  · rw [linePositions_eq_map, List.length_map, List.length_range]
  · rw [linePositions_eq_map, List.range_succ_eq_map]
    simp
  · rw [linePositions_eq_map, map_range_succ_getLast]
    by_cases h : lineSteps T pos0 pos1 = 0
    · simp [h]
    · rw [if_neg h]
      have hne : ((lineSteps T pos0 pos1 : ℚ)) ≠ 0 := by
        exact_mod_cast h
      congr 1
      rw [Prod.mk.injEq]
      constructor <;> field_simp
  · norm_num [lineCells, linePositions, lineSteps, lineAccum, unitTransform, pyround]
  · norm_num [linePositions, lineSteps, unitTransform, pyround]

/-- Claim C10: the built-in "unit" transform maps `(x, y)` to
`(round(x), round(y))` with round-half-to-even tie-breaking: `pyround`
is within 1/2 of its argument, sends integer-plus-half values to the
even neighbour, and `(0.5, 1.5) ↦ (0, 2)`, `(2.5, 3.5) ↦ (2, 4)`. -/
theorem unit_transform_round_half_even :
    (∀ x y : ℚ, unitTransform (x, y) = (pyround x, pyround y))
    ∧ (∀ q : ℚ, |q - (pyround q : ℚ)| ≤ 1 / 2)
    ∧ (∀ n : ℤ, pyround ((n : ℚ) + 1 / 2) = if n % 2 = 0 then n else n + 1)
    ∧ unitTransform (1 / 2, 3 / 2) = (0, 2)
    ∧ unitTransform (5 / 2, 7 / 2) = (2, 4) := by
  refine ⟨fun x y => rfl, ?_, ?_, ?_, ?_⟩
  · intro q
    have hle : ((⌊q⌋ : ℚ)) ≤ q := Int.floor_le q
    have hlt : q < (⌊q⌋ : ℚ) + 1 := Int.lt_floor_add_one q
    unfold pyround
    by_cases h1 : q - (⌊q⌋ : ℚ) < 1 / 2
    · rw [if_pos h1, abs_le]
      constructor <;> linarith
    · rw [if_neg h1]
      by_cases h2 : (1 : ℚ) / 2 < q - (⌊q⌋ : ℚ)
      · rw [if_pos h2, abs_le]
        push_cast
        constructor <;> linarith
      · rw [if_neg h2]
        have heq : q - (⌊q⌋ : ℚ) = 1 / 2 := le_antisymm (not_lt.mp h2) (not_lt.mp h1)
        by_cases h3 : (⌊q⌋ : ℤ) % 2 = 0 <;>
          [rw [if_pos h3]; rw [if_neg h3]] <;> rw [abs_le] <;> push_cast <;>
          constructor <;> linarith
  · intro n
    have hf : ⌊(n : ℚ) + 1 / 2⌋ = n := by
      rw [add_comm, Int.floor_add_int]
      norm_num
    have h : (n : ℚ) + 1 / 2 - (n : ℚ) = 1 / 2 := by ring
    simp only [pyround, hf, h]
    norm_num
  · norm_num [unitTransform, pyround]
  · norm_num [unitTransform, pyround]

lemma sepJoin_eq_flatten_dropLast (sep : Char) :
    ∀ L : List (List Char), ((L.map (fun b => b ++ [sep])).flatten).dropLast = sepJoin sep L := by
  intro L
  induction L with
  | nil => rfl
  | cons b rest ih =>
    cases rest with
    | nil => simp [sepJoin, List.dropLast_concat]
    | cons c rest' =>
      rw [List.map_cons, List.flatten_cons]
      rw [List.dropLast_append_of_ne_nil]
      · rw [ih]
        show (b ++ [sep]) ++ sepJoin sep (c :: rest') = b ++ [sep] ++ sepJoin sep (c :: rest')
        simp [List.append_assoc]
      · simp

lemma flatten_semis_ends :
    ∀ L : List (List Char), L ≠ [] →
      ∃ b, (L.map (fun x => x ++ [';'])).flatten = b ++ [';'] := by
  intro L
  induction L with
  | nil => intro h; exact absurd rfl h
  | cons x rest ih =>
    intro _
    cases rest with
    | nil => exact ⟨x, by simp⟩
    | cons y rest' =>
      obtain ⟨b', hb'⟩ := ih (by simp)
      refine ⟨x ++ [';'] ++ b', ?_⟩
      rw [List.map_cons, List.flatten_cons, hb']
      simp [List.append_assoc]

lemma ansi_code_ends_semi (color : Color) (bg : Bool) (s : List Char)
    (h : ansi_color_code color bg = some s) : ∃ b, s = b ++ [';'] := by
  cases color with
  | str cs =>
    match cs, h with
    | [c], h =>
      simp only [ansi_color_code] at h
      cases hl : subs.lookup c with
      | none => rw [hl] at h; exact absurd h (by simp)
      | some n =>
        rw [hl] at h
        simp only [Option.some.injEq] at h
        exact ⟨_, h.symm⟩
  | triple a b c =>
    simp only [ansi_color_code, Option.some.injEq] at h
    obtain ⟨b', hb'⟩ := flatten_semis_ends
      ((if a.isFloat then [a, b, c].map (fun x => pytrunc (x.toRat * 255))
        else [a, b, c].map PyNum.formatD).map intChars)
      (by by_cases hf : a.isFloat <;> simp [hf])
    rw [List.map_map] at hb'
    refine ⟨(if bg then intChars 48 else intChars 38) ++ [';'] ++ intChars 2 ++ [';'] ++ b', ?_⟩
    rw [← h]
    rw [show ((fun x => x ++ [';']) ∘ intChars) = (fun n => intChars n ++ [';']) from rfl] at hb'
    rw [hb']
    simp [List.append_assoc]

set_option maxHeartbeats 1000000 in
lemma ansi_chain_eq (t : Texel) (fb bb : List Char) :
    ['\x1b', '['] ++ (fb ++ [';']) ++ (bb ++ [';'])
      ++ (if t.bold then ['1', ';'] else []) ++ (if t.faint then ['2', ';'] else [])
      ++ (if t.italic then ['3', ';'] else []) ++ (if t.underline then ['4', ';'] else [])
      ++ (if t.blink then ['5', ';'] else []) ++ (if t.inverse then ['7', ';'] else [])
      ++ (if t.cross then ['9', ';'] else []) ++ (if t.overline then ['5', '3', ';'] else [])
      = ['\x1b', '['] ++ (([fb, bb] ++ flagCodes t).map (fun x => x ++ [';'])).flatten := by
  rcases t with ⟨ch, fgc, bgc, b1, b2, b3, b4, b5, b6, b7, b8⟩
  simp only [flagCodes]
  cases b1 <;> cases b2 <;> cases b3 <;> cases b4 <;>
    cases b5 <;> cases b6 <;> cases b7 <;> cases b8 <;>
    simp [List.append_assoc]

/-- Claim C6: `Texel.render` produces exactly: the escape introducer,
the foreground colour code, the background colour code, one code per
active style flag in a stable fixed order emitting all active flags
(all of them joined by single semicolons and closed by `'m'`), then the
cell's character (a single space when it is empty), then the reset
sequence. -/
theorem texel_render_escape_structure (t : Texel) (fg bg : List Char)
    (hfg : ansi_color_code t.fg_color false = some fg)
    (hbg : ansi_color_code t.bg_color true = some bg) :
    Texel.render t =
      some (['\x1b', '['] ++ sepJoin ';' ([fg.dropLast, bg.dropLast] ++ flagCodes t)
        ++ ['m'] ++ (if t.character = [] then [' '] else t.character)
        ++ ['\x1b', '[', '0', 'm']) := by
  obtain ⟨fb, hfb⟩ := ansi_code_ends_semi _ _ _ hfg
  obtain ⟨bb, hbb⟩ := ansi_code_ends_semi _ _ _ hbg
  have hfd : fg.dropLast = fb := by rw [hfb]; exact List.dropLast_concat
  have hbd : bg.dropLast = bb := by rw [hbb]; exact List.dropLast_concat
  have hbody : (if t.character.length > 0 then t.character else [' '])
      = (if t.character = [] then [' '] else t.character) := by
    cases t.character <;> simp
  simp only [Texel.render, hfg, hbg]
  rw [Option.some.injEq, hbody, hfd, hbd, hfb, hbb, ansi_chain_eq]
  rw [List.dropLast_append_of_ne_nil]
  · rw [sepJoin_eq_flatten_dropLast]
  · simp

/-- Witness for C6 at the Texel `{character := "D", bold := true}` with
default colours. -/
theorem texel_render_escape_structure_witness :
    Texel.render { character := ['D'], bold := true } =
      some (['\x1b', '['] ++ sepJoin ';'
          ([(['3', '9', ';'] : List Char).dropLast, (['4', '9', ';'] : List Char).dropLast]
            ++ flagCodes { character := ['D'], bold := true })
        ++ ['m'] ++ (if (['D'] : List Char) = [] then [' '] else ['D'])
        ++ ['\x1b', '[', '0', 'm']) :=
  texel_render_escape_structure { character := ['D'], bold := true }
    ['3', '9', ';'] ['4', '9', ';'] (by decide) (by decide)

/-- Claim C8: every symbolic code maps through the fixed 16-entry table
to its numeric base, the background form offset by 10 from the
foreground form; a float triple serializes to the extended form whose
three channels are the components scaled by 255 and truncated; the
float triple `(1.0, 0.0, 0.5)` and the int triple `(255, 0, 127)`
serialize identically. -/
theorem color_code_table_and_truecolor :
    (subs.all fun cn =>
        (ansi_color_code (.str [cn.1]) false == some (intChars cn.2 ++ [';']))
        && (ansi_color_code (.str [cn.1]) true == some (intChars (cn.2 + 10) ++ [';'])))
      = true
    ∧ (∀ r g b : ℚ, ∀ bg : Bool,
        ansi_color_code (.triple (.float r) (.float g) (.float b)) bg =
          some ((if bg then intChars 48 else intChars 38) ++ [';'] ++ intChars 2 ++ [';']
            ++ ([pytrunc (r * 255), pytrunc (g * 255), pytrunc (b * 255)].map
                  (fun n => intChars n ++ [';'])).flatten))
    ∧ ansi_color_code (.triple (.float 1) (.float 0) (.float (1 / 2))) false
        = ansi_color_code (.triple (.int 255) (.int 0) (.int 127)) false
    ∧ ansi_color_code (.triple (.float 1) (.float 0) (.float (1 / 2))) true
        = ansi_color_code (.triple (.int 255) (.int 0) (.int 127)) true := by
  refine ⟨by decide, ?_, ?_, ?_⟩
  · intro r g b bg
    rfl
  · have h1 : pytrunc ((1 : ℚ) * 255) = 255 := by norm_num [pytrunc]
    have h2 : pytrunc ((0 : ℚ) * 255) = 0 := by norm_num [pytrunc]
    have h3 : pytrunc ((1 : ℚ) / 2 * 255) = 127 := by
      norm_num [pytrunc]
    simp only [ansi_color_code, PyNum.isFloat, PyNum.toRat, List.map, h1, h2, h3,
      PyNum.formatD]
  · have h1 : pytrunc ((1 : ℚ) * 255) = 255 := by norm_num [pytrunc]
    have h2 : pytrunc ((0 : ℚ) * 255) = 0 := by norm_num [pytrunc]
    have h3 : pytrunc ((1 : ℚ) / 2 * 255) = 127 := by
      norm_num [pytrunc]
    simp only [ansi_color_code, PyNum.isFloat, PyNum.toRat, List.map, h1, h2, h3,
      PyNum.formatD]

/-- Counterexample to claim C9: the malformed colour triple
`(1.0, 0, 0)` (mixed float/int components) is NOT rejected by the
Serializer: `render` succeeds on it (the float first component makes
the code rescale every component by 255), so no `InvalidColor`
condition is ever signalled for it. -/
theorem mixed_triple_renders_without_error :
    Texel.render { character := ['x'], fg_color := Color.triple (.float 1) (.int 0) (.int 0) } =
      some ("\x1b[38;2;255;0;0;49mx\x1b[0m".data) := by
  have h1 : pytrunc ((PyNum.float 1).toRat * 255) = 255 := by norm_num [pytrunc, PyNum.toRat]
  have h2 : pytrunc ((PyNum.int 0).toRat * 255) = 0 := by norm_num [pytrunc, PyNum.toRat]
  have hfg : ansi_color_code (Color.triple (.float 1) (.int 0) (.int 0)) false =
      some "38;2;255;0;0;".data := by
    simp only [ansi_color_code, PyNum.isFloat, List.map, h1, h2]
    decide
  simp only [Texel.render, hfg]
  decide

/-- Claim C9 (amended): a string colour value that is not a key of the
16-entry table makes the Serializer signal an error when it encounters
it during render (`ansi_color_code` returns `none`), and never at `set`
time — the buffer stores any colour value uninspected; but a mixed
float/int triple is NOT detected: with a float first component every
component is scaled by 255 and truncated and serialization succeeds. -/
theorem color_error_lazy_amended (s : List Char) (bg : Bool)
    (h : knownSymbol s = false) :
    ansi_color_code (.str s) bg = none
    ∧ (∀ (t : Texel) (v : Color),
        (applyPatch t { fg_color := some v }).fg_color = v
        ∧ (applyPatch t { bg_color := some v }).bg_color = v)
    ∧ (∀ (q : ℚ) (b c : PyNum) (bgf : Bool),
        ansi_color_code (.triple (.float q) b c) bgf =
          some ((if bgf then intChars 48 else intChars 38) ++ [';'] ++ intChars 2 ++ [';']
            ++ ([pytrunc (q * 255), pytrunc (b.toRat * 255), pytrunc (c.toRat * 255)].map
                  (fun n => intChars n ++ [';'])).flatten)) := by
  refine ⟨?_, fun t v => ⟨rfl, rfl⟩, fun q b c bgf => rfl⟩
  match s with
  | [] => rfl
  | [c] =>
      simp only [knownSymbol] at h
      cases hl : subs.lookup c with
      | some n => rw [hl] at h; exact absurd h (by simp)
      | none => simp [ansi_color_code, hl]
  | a :: b :: rest => rfl

/-- Witness for the amended C9 at the unknown symbolic code `"x"`. -/
theorem color_error_lazy_amended_witness :
    knownSymbol ['x'] = false ∧ ansi_color_code (.str ['x']) false = none :=
  ⟨by decide, (color_error_lazy_amended ['x'] false (by decide)).1⟩

lemma updateAt_get? {α : Type _} :
    ∀ (l : List α) (i j : ℕ) (f : α → α),
      (updateAt l i f).get? j = if j = i then (l.get? i).map f else l.get? j := by
  intro l
  induction l with
  | nil =>
    intro i j f
    simp [updateAt]
  | cons a rest ih =>
    intro i j f
    cases i with
    | zero =>
      cases j with
      | zero => simp [updateAt]
      | succ k => simp [updateAt]
    | succ n =>
      cases j with
      | zero => simp [updateAt]
      | succ k =>
        simp only [updateAt, List.get?_cons_succ, ih n k f, Nat.succ.injEq]

lemma canvasSet_getCell (ncol nrow : ℕ) (D : Transform) (tr? : Option Transform)
    (buffer : List (List Texel)) (pos : ℚ × ℚ) (patch : TexelPatch) (col row : ℤ)
    (hT : (tr?.getD D) pos = (col, row))
    (hc0 : 0 ≤ col) (hc1 : col < (ncol : ℤ)) (hr0 : 0 ≤ row) (hr1 : row < (nrow : ℤ)) :
    ∀ r c : ℕ, getCell (canvasSet ncol nrow D tr? buffer pos patch) r c =
      if r = row.toNat ∧ c = col.toNat then
        (getCell buffer r c).map (fun t => applyPatch t patch)
      else getCell buffer r c := by
  intro r c
  simp only [canvasSet, hT]
  rw [if_pos ⟨hc0, hc1, hr0, hr1⟩]
  simp only [getCell]
  rw [updateAt_get?]
  by_cases hr : r = Int.toNat row
  · subst hr
    rw [if_pos rfl]
    cases hb : buffer.get? (Int.toNat row) with
    | none => simp [hb]
    | some rowL =>
      simp only [hb, Option.map_some', Option.some_bind]
      rw [updateAt_get?]
      by_cases hc : c = Int.toNat col
      · subst hc
        simp
      · simp [hc]
  · rw [if_neg hr]
    rw [if_neg (fun hrc => hr hrc.1)]

/-- Claim C2 (semantics of the overwrite-the-named-fields `set`, as
implemented by DotCanvas.set): an in-bounds `set` overwrites exactly
the fields named in its keyword set on the target cell, leaves every
other cell untouched, and two sequential `set` calls at the same
position compose to the union of both updates (the second taking
precedence on fields named by both, so disjoint attribute-name sets
both take full effect). -/
theorem set_partial_update (ncol nrow : ℕ) (D : Transform) (tr? : Option Transform)
    (buffer : List (List Texel)) (pos : ℚ × ℚ) (p1 p2 : TexelPatch)
    (col row : ℤ) (cell : Texel)
    (hT : (tr?.getD D) pos = (col, row))
    (hc0 : 0 ≤ col) (hc1 : col < (ncol : ℤ)) (hr0 : 0 ≤ row) (hr1 : row < (nrow : ℤ))
    (hcell : getCell buffer row.toNat col.toNat = some cell) :
    getCell (canvasSet ncol nrow D tr? buffer pos p1) row.toNat col.toNat
        = some (applyPatch cell p1)
    ∧ getCell (canvasSet ncol nrow D tr?
          (canvasSet ncol nrow D tr? buffer pos p1) pos p2) row.toNat col.toNat
        = some (applyPatch (applyPatch cell p1) p2)
    ∧ applyPatch (applyPatch cell p1) p2 = applyPatch cell (patchMerge p1 p2)
    ∧ ∀ r c : ℕ, ¬(r = row.toNat ∧ c = col.toNat) →
        getCell (canvasSet ncol nrow D tr? buffer pos p1) r c = getCell buffer r c := by
  have hone := canvasSet_getCell ncol nrow D tr? buffer pos p1 col row hT hc0 hc1 hr0 hr1
  have h1 : getCell (canvasSet ncol nrow D tr? buffer pos p1) row.toNat col.toNat
      = some (applyPatch cell p1) := by
    rw [hone, if_pos ⟨rfl, rfl⟩, hcell]
    rfl
  refine ⟨h1, ?_, ?_, ?_⟩
  · have htwo := canvasSet_getCell ncol nrow D tr?
      (canvasSet ncol nrow D tr? buffer pos p1) pos p2 col row hT hc0 hc1 hr0 hr1
    rw [htwo, if_pos ⟨rfl, rfl⟩, h1]
    rfl
  · rcases p1 with ⟨a1, a2, a3, a4, a5, a6, a7, a8, a9, a10, a11⟩
    rcases p2 with ⟨b1, b2, b3, b4, b5, b6, b7, b8, b9, b10, b11⟩
    simp only [applyPatch, patchMerge, oMerge]
    cases b1 <;> cases b2 <;> cases b3 <;> cases b4 <;> cases b5 <;> cases b6 <;>
      cases b7 <;> cases b8 <;> cases b9 <;> cases b10 <;> cases b11 <;> rfl
  · intro r c hrc
    rw [hone, if_neg hrc]

/-- Witness for C2: a 1x1 grid, two sets at the origin with disjoint
patches (first the character, then the bold flag). -/
theorem set_partial_update_witness :
    getCell (canvasSet 1 1 unitTransform none
        (canvasSet 1 1 unitTransform none [[{}]] (0, 0) { character := some ['x'] })
        (0, 0) { bold := some true }) 0 0
      = some (applyPatch (applyPatch {} { character := some ['x'] }) { bold := some true }) :=
  (set_partial_update 1 1 unitTransform none [[{}]] (0, 0)
    { character := some ['x'] } { bold := some true } 0 0 {}
    (by norm_num [unitTransform, pyround])
    (by norm_num) (by norm_num) (by norm_num) (by norm_num) rfl).2.1

/-- Claim C3: a `set` whose transformed `(col, row)` falls outside
`[0, ncol) x [0, nrow)` leaves the whole grid unchanged and raises
nothing (the total function returns the buffer as is), for every grid
including the 0x0 one. -/
theorem set_out_of_bounds_noop (ncol nrow : ℕ) (D : Transform) (tr? : Option Transform)
    (buffer : List (List Texel)) (pos : ℚ × ℚ) (patch : TexelPatch)
    (h : ¬(0 ≤ ((tr?.getD D) pos).1 ∧ ((tr?.getD D) pos).1 < (ncol : ℤ)
        ∧ 0 ≤ ((tr?.getD D) pos).2 ∧ ((tr?.getD D) pos).2 < (nrow : ℤ))) :
    canvasSet ncol nrow D tr? buffer pos patch = buffer := by
  simp only [canvasSet]
  rw [if_neg h]

/-- Witness for C3 on the 0x0 grid: any in-range-looking position is
out of bounds there, and the empty buffer is returned unchanged. -/
theorem set_out_of_bounds_noop_witness :
    ¬(0 ≤ (((none : Option Transform)).getD unitTransform (0, 0)).1
        ∧ (((none : Option Transform)).getD unitTransform (0, 0)).1 < ((0 : ℕ) : ℤ)
        ∧ 0 ≤ (((none : Option Transform)).getD unitTransform (0, 0)).2
        ∧ (((none : Option Transform)).getD unitTransform (0, 0)).2 < ((0 : ℕ) : ℤ))
    ∧ canvasSet 0 0 unitTransform none [] (0, 0) { character := some ['x'] } = [] :=
  ⟨by norm_num [unitTransform, pyround],
   set_out_of_bounds_noop 0 0 unitTransform none [] (0, 0) { character := some ['x'] }
     (by norm_num [unitTransform, pyround])⟩

lemma mapM_option_length {α β : Type _} (f : α → Option β) :
    ∀ (l : List α) (r : List β), l.mapM f = some r → r.length = l.length := by
  intro l
  induction l with
  | nil =>
    intro r h
    simp only [List.mapM_nil, pure, Option.some.injEq] at h
    subst h
    rfl
  | cons a rest ih =>
    intro r h
    rw [List.mapM_cons] at h
    cases hfa : f a with
    | none => rw [hfa] at h; exact absurd h (by simp [Option.bind])
    | some b =>
      rw [hfa] at h
      cases hrest : rest.mapM f with
      | none => rw [hrest] at h; exact absurd h (by simp [Option.bind])
      | some rs =>
        rw [hrest] at h
        simp at h
        subst h
        simp [ih rs hrest]

/-- Claim C7 (semantics of the row-joining body of CanvasBase.render,
reading the grid that the canvas stores in `_buffer`): when every cell
serializes, the output is one line per grid row, each line the
concatenation of its cells' escape-coded renderings in row-major
order, rows joined by a single newline with no trailing newline. -/
theorem render_rows_joined (buffer : List (List Texel)) (rows : List (List Char))
    (h : buffer.mapM (fun (row : List Texel) => (row.mapM Texel.render).map List.flatten)
        = some rows) :
    renderGrid buffer = some (sepJoin '\n' rows) ∧ rows.length = buffer.length := by
  constructor
  · simp only [renderGrid, h, Option.map_some']
    rw [sepJoin_eq_flatten_dropLast]
  · exact mapM_option_length _ buffer rows h

/-- Witness for C7 on a 2x1 grid of default Texels. -/
theorem render_rows_joined_witness :
    renderGrid [[{}], [{}]] =
      some (sepJoin '\n' ["\x1b[39;49m \x1b[0m".data, "\x1b[39;49m \x1b[0m".data])
    ∧ (["\x1b[39;49m \x1b[0m".data, "\x1b[39;49m \x1b[0m".data] : List (List Char)).length
        = ([[{}], [{}]] : List (List Texel)).length :=
  render_rows_joined [[{}], [{}]]
    ["\x1b[39;49m \x1b[0m".data, "\x1b[39;49m \x1b[0m".data] (by decide)

/-- Counterexample to claim C4: `triangle` does NOT draw its boundary
edges "as Lines under that transform".  It transforms the vertices
first and then draws the edge lines between those integer coordinates
with `transformation=None`, i.e. under the canvas default.  With
default transform "unit" and the registered transform `sqTransform`,
the unfilled triangle `((0,0),(3,0),(3,0))` writes cell `(2,0)`,
which no boundary edge drawn as a Line under `sqTransform` (the trace
`triangleSpecEdges`, built from the spec's words) ever touches — so
with `fill` off the code touches cells outside the claim's boundary. -/
theorem triangle_edges_not_under_given_transform :
    cellsOf (triangleTrace unitTransform (some sqTransform) (0, 0) (3, 0) (3, 0) false)
      = [(0, 0), (1, 0), (2, 0), (3, 0), (4, 0), (5, 0), (6, 0), (7, 0), (8, 0), (9, 0),
         (9, 0),
         (0, 0), (1, 0), (2, 0), (3, 0), (4, 0), (5, 0), (6, 0), (7, 0), (8, 0), (9, 0)]
    ∧ cellsOf (triangleSpecEdges sqTransform (0, 0) (3, 0) (3, 0))
      = [(0, 0), (0, 0), (1, 0), (1, 0), (1, 0), (4, 0), (4, 0), (4, 0), (9, 0), (9, 0),
         (9, 0),
         (0, 0), (0, 0), (1, 0), (1, 0), (1, 0), (4, 0), (4, 0), (4, 0), (9, 0), (9, 0)]
    ∧ ((2 : ℤ), (0 : ℤ)) ∈
        cellsOf (triangleTrace unitTransform (some sqTransform) (0, 0) (3, 0) (3, 0) false)
    ∧ ((2 : ℤ), (0 : ℤ)) ∉
        cellsOf (triangleSpecEdges sqTransform (0, 0) (3, 0) (3, 0)) := by
  have h1 : cellsOf (triangleTrace unitTransform (some sqTransform) (0, 0) (3, 0) (3, 0) false)
      = [(0, 0), (1, 0), (2, 0), (3, 0), (4, 0), (5, 0), (6, 0), (7, 0), (8, 0), (9, 0),
         (9, 0),
         (0, 0), (1, 0), (2, 0), (3, 0), (4, 0), (5, 0), (6, 0), (7, 0), (8, 0), (9, 0)] := by
    norm_num [cellsOf, triangleTrace, lineTrace, linePositions, lineSteps, lineAccum,
      intPos, unitTransform, sqTransform, pyround]
  have h2 : cellsOf (triangleSpecEdges sqTransform (0, 0) (3, 0) (3, 0))
      = [(0, 0), (0, 0), (1, 0), (1, 0), (1, 0), (4, 0), (4, 0), (4, 0), (9, 0), (9, 0),
         (9, 0),
         (0, 0), (0, 0), (1, 0), (1, 0), (1, 0), (4, 0), (4, 0), (4, 0), (9, 0), (9, 0)] := by
    norm_num [cellsOf, triangleSpecEdges, lineTrace, linePositions, lineSteps, lineAccum,
      sqTransform, pyround]
  refine ⟨h1, h2, ?_, ?_⟩
  · rw [h1]; decide
  · rw [h2]; decide

/-- Claim C4 (amended): `triangle` always draws the three boundary
edges as Lines between the transform-mapped integer vertex coordinates,
drawn under the canvas default transform (the edge line calls pass no
transform); when fill is requested and the transformed edge
`pos0 → pos1` spans at least 2 steps (step count as in Line), it
additionally draws, for each of the `steps - 1` continuous-space points
strictly between `pos0` and `pos1`, a Line from that point to `pos2`
under the call's transform; with fill off the trace is exactly the
three edge lines. -/
theorem triangle_edges_and_fan (D : Transform) (tr? : Option Transform)
    (pos0 pos1 pos2 : ℚ × ℚ) (fill : Bool) :
    triangleTrace D tr? pos0 pos1 pos2 fill =
      (lineTrace D (intPos ((tr?.getD D) pos0)) (intPos ((tr?.getD D) pos1))
        ++ lineTrace D (intPos ((tr?.getD D) pos1)) (intPos ((tr?.getD D) pos2))
        ++ lineTrace D (intPos ((tr?.getD D) pos0)) (intPos ((tr?.getD D) pos2)))
      ++ (if fill ∧ 2 ≤ lineSteps (tr?.getD D) pos0 pos1 then
            ((List.range (lineSteps (tr?.getD D) pos0 pos1 - 1)).map
              (fun (i : ℕ) => lineTrace (tr?.getD D)
                (pos0.1 + ((i : ℚ) + 1)
                    * ((pos1.1 - pos0.1) / (lineSteps (tr?.getD D) pos0 pos1)),
                 pos0.2 + ((i : ℚ) + 1)
                    * ((pos1.2 - pos0.2) / (lineSteps (tr?.getD D) pos0 pos1)))
                pos2)).flatten
          else []) := by
  simp only [triangleTrace]
  congr 1
  by_cases h : fill = true ∧ 2 ≤ lineSteps (tr?.getD D) pos0 pos1
  · rw [if_pos h, if_pos h, lineAccum_eq_map, List.map_map]
    rfl
  · rw [if_neg h, if_neg h]

lemma loopPairsAux_zip {α : Type _} :
    ∀ (vs : List α) (prev : α), loopPairsAux prev vs = (prev :: vs.dropLast).zip vs := by
  intro vs
  induction vs with
  | nil => intro prev; rfl
  | cons v rest ih =>
    intro prev
    cases rest with
    | nil => rfl
    | cons w rest' =>
      show (prev, v) :: loopPairsAux v (w :: rest') = _
      rw [ih v]
      rfl

lemma foldl_add_eq_sum (f : ℚ × ℚ → ℚ) :
    ∀ (vs : List (ℚ × ℚ)) (a : ℚ),
      vs.foldl (fun acc p => acc + f p) a = a + (vs.map f).sum := by
  intro vs
  induction vs with
  | nil => intro a; simp
  | cons v rest ih =>
    intro a
    simp only [List.foldl_cons, List.map_cons, List.sum_cons, ih]
    ring

/-- Claim C5: for every non-empty vertex list, `polygon` treats the
vertices as a closed loop — its consecutive-edge pairs are exactly the
zip of the rotated list (last vertex first) with the list itself, so
the last vertex connects back to the first; unfilled it draws one Line
per such pair under the call's transform, filled it computes the
arithmetic-mean centroid of all vertices and fills one Triangle
`(centroid, v[i-1], v[i])` per pair, including the wrap-around pair. -/
theorem polygon_closed_fan (D : Transform) (tr? : Option Transform)
    (vs : List (ℚ × ℚ)) (h : vs ≠ []) :
    loopPairs vs = (vs.getLast h :: vs.dropLast).zip vs
    ∧ polygonTrace D tr? vs true =
        ((loopPairs vs).map (fun e => triangleTrace D tr? (centroid vs) e.1 e.2 true)).flatten
    ∧ polygonTrace D tr? vs false =
        ((loopPairs vs).map (fun e => lineTrace (tr?.getD D) e.1 e.2)).flatten
    ∧ centroid vs =
        ((vs.map Prod.fst).sum / (vs.length : ℚ), (vs.map Prod.snd).sum / (vs.length : ℚ)) := by
  refine ⟨?_, rfl, rfl, ?_⟩
  · have hl : vs.getLast? = some (vs.getLast h) := List.getLast?_eq_getLast vs h
    unfold loopPairs
    rw [hl]
    exact loopPairsAux_zip vs _
  · unfold centroid
    rw [foldl_add_eq_sum, foldl_add_eq_sum]
    norm_num

/-- Witness for C5 on the triangle-shaped vertex list
`[(0,0), (4,0), (0,4)]`. -/
theorem polygon_closed_fan_witness :
    ([((0 : ℚ), (0 : ℚ)), (4, 0), (0, 4)] : List (ℚ × ℚ)) ≠ []
    ∧ centroid [((0 : ℚ), (0 : ℚ)), (4, 0), (0, 4)] =
        ((([((0 : ℚ), (0 : ℚ)), (4, 0), (0, 4)] : List (ℚ × ℚ)).map Prod.fst).sum
            / ((([((0 : ℚ), (0 : ℚ)), (4, 0), (0, 4)] : List (ℚ × ℚ)).length : ℚ)),
         (([((0 : ℚ), (0 : ℚ)), (4, 0), (0, 4)] : List (ℚ × ℚ)).map Prod.snd).sum
            / ((([((0 : ℚ), (0 : ℚ)), (4, 0), (0, 4)] : List (ℚ × ℚ)).length : ℚ))) :=
  ⟨by simp,
   (polygon_closed_fan unitTransform none [((0 : ℚ), (0 : ℚ)), (4, 0), (0, 4)]
      (by simp)).2.2.2⟩

end Tcanvas
